import Mathlib

set_option maxRecDepth 100000

/-!
Verification development for the `single_agent` repository.

The development shallowly embeds the two components with design content —
the safe expression evaluator / calculator tool (`src/single_agent/tools.py`)
and the conversation orchestrator (`src/single_agent/agent.py`) — together
with the tool registry and dispatcher.

Modelling conventions:
* Python floats are modelled as exact rationals (`Q` below).  Every IEEE
  double is an exact rational, and on the exactly-representable fragment
  exercised here (integer arithmetic, dyadic/decimal fractions, perfect
  squares) exact rational arithmetic coincides with float arithmetic.
  Operations whose float result would be inexact (fractional powers,
  inexact square roots) are given an explicit error outcome in the model and
  are marked as model boundaries where they occur.
* `Q` is a hand-rolled rational (numerator/denominator, normalised with a
  fuel-based Euclid) so that every definition reduces inside the kernel and
  concrete runs of the calculator can be settled by `decide`.
* The external model collaborator is an explicit function argument
  (`Model`), and the system clock is a string argument threaded to
  `get_current_datetime`; both are the only environmental inputs.
-/

namespace SingleAgent

/-- Fuel-based Euclidean gcd; fuel `a+1` always suffices since the first
argument strictly decreases. -/
def gcdF : Nat → Nat → Nat → Nat
  | 0, _, b => b
  | f+1, a, b => if a = 0 then b else gcdF f (b % a) a

/-- Kernel-computable gcd. -/
def ngcd (a b : Nat) : Nat := gcdF (a+1) a b

theorem gcdF_eq_gcd : ∀ (f a b : Nat), a < f → gcdF f a b = Nat.gcd a b := by
  intro f
  induction f with
  | zero => intro a b h; omega
  | succ f ih =>
    intro a b h
    by_cases ha : a = 0
    · simp [gcdF, ha]
    · have hlt : b % a < f :=
        Nat.lt_of_lt_of_le (Nat.mod_lt _ (Nat.pos_of_ne_zero ha)) (by omega)
      rw [gcdF, if_neg ha, ih (b % a) a hlt]
      exact (Nat.gcd_rec a b).symm

theorem ngcd_eq_gcd (a b : Nat) : ngcd a b = Nat.gcd a b :=
  gcdF_eq_gcd (a+1) a b (Nat.lt_succ_self a)

/-- Exact rational number: the model of a Python float value.  `den` is kept
positive and coprime to `num` by the smart constructor `Q.mk'`. -/
structure Q where
  num : Int
  den : Nat
deriving DecidableEq, Repr

instance : Inhabited Q := ⟨⟨0, 1⟩⟩

/-- Normalising constructor: reduce `n / d` to lowest terms (`d ≠ 0`
expected; callers guard division by zero exactly where Python raises). -/
def Q.mk' (n : Int) (d : Nat) : Q :=
  let g := ngcd n.natAbs d
  ⟨n / (g : Int), d / g⟩

def Q.ofInt (n : Int) : Q := ⟨n, 1⟩

def Q.ofNat (n : Nat) : Q := ⟨(n : Int), 1⟩

/-- Value of a `Q` as a mathematical rational, used to state that the
evaluator implements standard arithmetic. -/
def Q.toRat (q : Q) : ℚ := (q.num : ℚ) / (q.den : ℚ)

def Q.add (a b : Q) : Q :=
  Q.mk' (a.num * (b.den : Int) + b.num * (a.den : Int)) (a.den * b.den)

def Q.sub (a b : Q) : Q :=
  Q.mk' (a.num * (b.den : Int) - b.num * (a.den : Int)) (a.den * b.den)

def Q.mul (a b : Q) : Q := Q.mk' (a.num * b.num) (a.den * b.den)

/-- Exact division (caller guards `b ≠ 0`, as Python raises there). -/
def Q.div (a b : Q) : Q :=
  let n := a.num * (b.den : Int)
  Q.mk' (if b.num < 0 then -n else n) (a.den * b.num.natAbs)

def Q.neg (a : Q) : Q := ⟨-a.num, a.den⟩

/-- Floor of a rational, via floor division of the numerator. -/
def Q.floor (a : Q) : Int := a.num.fdiv (a.den : Int)

/-- Integer power (caller guards `0 ** negative`, as Python raises there). -/
def Q.powInt (a : Q) (e : Int) : Q :=
  if 0 ≤ e then Q.mk' (a.num ^ e.toNat) (a.den ^ e.toNat)
  else
    let k := (-e).toNat
    let n : Int := (a.den : Int) ^ k
    Q.mk' (if a.num < 0 ∧ k % 2 = 1 then -n else n) (a.num.natAbs ^ k)

def Q.isZero (a : Q) : Bool := a.num == 0

def Q.isNeg (a : Q) : Bool := a.num < 0

/-- Newton iteration for the integer square root, with fuel. -/
def isqrtAux : Nat → Nat → Nat → Nat
  | 0, _, x => x
  | f+1, n, x =>
    let y := (x + n / x) / 2
    if y < x then isqrtAux f n y else x

def isqrt (n : Nat) : Nat := if n ≤ 1 then n else isqrtAux (n+1) n n

/-- Exact square root of a nonnegative rational: `some` when both numerator
and denominator are perfect squares (the fragment on which float `sqrt` is
exact), `none` otherwise (model boundary: inexact float results). -/
def Q.sqrtExact (q : Q) : Option Q :=
  let n := q.num.toNat
  let rn := isqrt n
  let rd := isqrt q.den
  if rn * rn = n ∧ rd * rd = q.den then some (Q.mk' (rn : Int) rd) else none

/-! ## Lexing: model of parsing the expression string
`calculator` parses its input with `ast.parse(expression.strip(), mode="eval")`.
The model lexes and parses the arithmetic fragment of that grammar (numeric
literals with an optional decimal point, identifiers, `+ - * / ** % //`,
parentheses, calls with positional and keyword arguments).  Constructs the
Python grammar accepts but the fragment does not (strings, comparisons,
scientific-notation literals, …) fail here with a syntax error, mirroring
that in the source they are rejected either by `ast.parse` or by
`_safe_eval`'s reject-by-default walk — in both systems they surface as an
`"Error: ..."` string from `calculator`. -/

inductive Tok
  | num (q : Q)
  | ident (s : String)
  | plus | minus | star | slash | dstar | dslash | percent
  | lparen | rparen | comma | eq
deriving DecidableEq, Repr

def digitVal (c : Char) : Nat := c.toNat - 48

/-- Read a run of decimal digits, returning value, digit count, rest. -/
def readDigitsC : List Char → Nat → Nat → (Nat × Nat × List Char)
  | c :: cs, acc, k =>
    if c.isDigit then readDigitsC cs (acc * 10 + digitVal c) (k+1) else (acc, k, c :: cs)
  | [], acc, k => (acc, k, [])

def headIsDigit : List Char → Bool
  | c :: _ => c.isDigit
  | [] => false

def readIdentChars : List Char → List Char → (List Char × List Char)
  | c :: cs, acc =>
    if c.isAlphanum ∨ c = '_' then readIdentChars cs (c :: acc) else (acc.reverse, c :: cs)
  | [], acc => (acc.reverse, [])

def tokenize : Nat → List Char → List Tok → Except String (List Tok)
  | 0, _, _ => .error "lexer out of fuel"
  | _+1, [], acc => .ok acc.reverse
  | f+1, c :: cs, acc =>
    if c.isWhitespace then tokenize f cs acc
    else if c.isDigit ∨ (c = '.' ∧ headIsDigit cs) then
      let (i, _, cs1) := readDigitsC (c :: cs) 0 0
      match cs1 with
      | '.' :: cs2 =>
        let (fr, k, cs3) := readDigitsC cs2 0 0
        tokenize f cs3 (.num (Q.mk' ((i * 10^k + fr : Nat) : Int) (10^k)) :: acc)
      | _ => tokenize f cs1 (.num (Q.ofNat i) :: acc)
    else if c.isAlpha ∨ c = '_' then
      let (nm, cs1) := readIdentChars (c :: cs) []
      tokenize f cs1 (.ident (String.mk nm) :: acc)
    else
      match c, cs with
      | '*', '*' :: cs1 => tokenize f cs1 (.dstar :: acc)
      | '*', _ => tokenize f cs (.star :: acc)
      | '/', '/' :: cs1 => tokenize f cs1 (.dslash :: acc)
      | '/', _ => tokenize f cs (.slash :: acc)
      | '+', _ => tokenize f cs (.plus :: acc)
      | '-', _ => tokenize f cs (.minus :: acc)
      | '%', _ => tokenize f cs (.percent :: acc)
      | '(', _ => tokenize f cs (.lparen :: acc)
      | ')', _ => tokenize f cs (.rparen :: acc)
      | ',', _ => tokenize f cs (.comma :: acc)
      | '=', _ => tokenize f cs (.eq :: acc)
      | _, _ => .error "invalid syntax"

/-! ## Abstract syntax
The tagged fragment of the Python `ast` node set that `_safe_eval` walks:
literals, names, binary and unary operations, and calls (whose keyword
arguments `_safe_eval` never touches). -/

inductive BOp
  | add | sub | mul | div | pow | mod | floordiv
deriving DecidableEq, Repr

inductive UOp
  | neg | pos
deriving DecidableEq, Repr

inductive Ast
  | const (v : Q)
  | name (id : String)
  | binop (op : BOp) (l r : Ast)
  | unop (op : UOp) (e : Ast)
  | call (f : Ast) (args : List Ast) (keywords : List (String × Ast))

/-! ## Parsing: the `eval`-mode expression grammar on the arithmetic fragment
Fuel-indexed recursive descent with Python's precedence: `+ -` over `* / % //`
over unary sign over `**` (right-associative, binding a unary right operand)
over atoms, call trailers, and parentheses.  Keyword arguments are parsed
into the `keywords` field, positional-after-keyword is a syntax error, and
the whole token stream must be consumed, as with `ast.parse(mode="eval")`. -/

mutual

def parseArith : Nat → List Tok → Except String (Ast × List Tok)
  | 0, _ => .error "expression too deeply nested"
  | f+1, ts => do
    let (l, ts1) ← parseTerm f ts
    parseArithRest f l ts1

def parseArithRest : Nat → Ast → List Tok → Except String (Ast × List Tok)
  | 0, _, _ => .error "expression too deeply nested"
  | f+1, acc, .plus :: ts1 => do
    let (r, ts2) ← parseTerm f ts1
    parseArithRest f (.binop .add acc r) ts2
  | f+1, acc, .minus :: ts1 => do
    let (r, ts2) ← parseTerm f ts1
    parseArithRest f (.binop .sub acc r) ts2
  | _+1, acc, ts => .ok (acc, ts)

def parseTerm : Nat → List Tok → Except String (Ast × List Tok)
  | 0, _ => .error "expression too deeply nested"
  | f+1, ts => do
    let (l, ts1) ← parseFactor f ts
    parseTermRest f l ts1

def parseTermRest : Nat → Ast → List Tok → Except String (Ast × List Tok)
  | 0, _, _ => .error "expression too deeply nested"
  | f+1, acc, .star :: ts1 => do
    let (r, ts2) ← parseFactor f ts1
    parseTermRest f (.binop .mul acc r) ts2
  | f+1, acc, .slash :: ts1 => do
    let (r, ts2) ← parseFactor f ts1
    parseTermRest f (.binop .div acc r) ts2
  | f+1, acc, .percent :: ts1 => do
    let (r, ts2) ← parseFactor f ts1
    parseTermRest f (.binop .mod acc r) ts2
  | f+1, acc, .dslash :: ts1 => do
    let (r, ts2) ← parseFactor f ts1
    parseTermRest f (.binop .floordiv acc r) ts2
  | _+1, acc, ts => .ok (acc, ts)

def parseFactor : Nat → List Tok → Except String (Ast × List Tok)
  | 0, _ => .error "expression too deeply nested"
  | f+1, .plus :: ts1 => do
    let (e, ts2) ← parseFactor f ts1
    .ok (.unop .pos e, ts2)
  | f+1, .minus :: ts1 => do
    let (e, ts2) ← parseFactor f ts1
    .ok (.unop .neg e, ts2)
  | f+1, ts => parsePower f ts

def parsePower : Nat → List Tok → Except String (Ast × List Tok)
  | 0, _ => .error "expression too deeply nested"
  | f+1, ts => do
    let (b, ts1) ← parseAtomTrailed f ts
    match ts1 with
    | .dstar :: ts2 => do
      let (e, ts3) ← parseFactor f ts2
      .ok (.binop .pow b e, ts3)
    | _ => .ok (b, ts1)

def parseAtomTrailed : Nat → List Tok → Except String (Ast × List Tok)
  | 0, _ => .error "expression too deeply nested"
  | f+1, ts => do
    let (a, ts1) ← parseAtom f ts
    parseTrailer f a ts1

def parseAtom : Nat → List Tok → Except String (Ast × List Tok)
  | 0, _ => .error "expression too deeply nested"
  | _+1, .num q :: ts1 => .ok (.const q, ts1)
  | _+1, .ident s :: ts1 => .ok (.name s, ts1)
  | f+1, .lparen :: ts1 => do
    let (e, ts2) ← parseArith f ts1
    match ts2 with
    | .rparen :: ts3 => .ok (e, ts3)
    | _ => .error "invalid syntax"
  | _+1, _ => .error "invalid syntax"

def parseTrailer : Nat → Ast → List Tok → Except String (Ast × List Tok)
  | 0, _, _ => .error "expression too deeply nested"
  | f+1, a, .lparen :: ts1 => do
    let (args, kws, ts2) ← parseArg f ts1 false [] []
    parseTrailer f (.call a args kws) ts2
  | _+1, a, ts => .ok (a, ts)

def parseArg : Nat → List Tok → Bool → List Ast → List (String × Ast) →
    Except String (List Ast × List (String × Ast) × List Tok)
  | 0, _, _, _, _ => .error "expression too deeply nested"
  | _+1, .rparen :: ts1, _, args, kws => .ok (args.reverse, kws.reverse, ts1)
  | f+1, .ident s :: .eq :: ts1, _, args, kws => do
    let (v, ts2) ← parseArith f ts1
    parseArgsSep f ts2 true args ((s, v) :: kws)
  | f+1, ts, seenKw, args, kws =>
    if seenKw then .error "positional argument follows keyword argument"
    else do
      let (v, ts2) ← parseArith f ts
      parseArgsSep f ts2 false (v :: args) kws

def parseArgsSep : Nat → List Tok → Bool → List Ast → List (String × Ast) →
    Except String (List Ast × List (String × Ast) × List Tok)
  | 0, _, _, _, _ => .error "expression too deeply nested"
  | f+1, .comma :: ts1, seenKw, args, kws => parseArg f ts1 seenKw args kws
  | _+1, .rparen :: ts1, _, args, kws => .ok (args.reverse, kws.reverse, ts1)
  | _+1, _, _, _, _ => .error "invalid syntax"

end

/-- Parse a stripped expression string to the model syntax tree; the fuel is
ample for any input (each parser step consumes fuel at most ten times faster
than it consumes tokens). -/
def parseExpr (s : String) : Except String Ast := do
  let ts ← tokenize (s.data.length + 1) s.data []
  let (a, rest) ← parseArith (10 * ts.length + 10) ts
  if rest = [] then .ok a else .error "invalid syntax"

/-! ## Values and the `_SAFE_NAMES` whitelist
`_SAFE_NAMES` maps every non-underscore attribute of the `math` module to
its value — functions and float constants.  The model carries the names the
claims exercise plus the float constants `pi`, `e`, `tau` at their exact
IEEE-double rational values; every identifier outside the modelled whitelist
takes the same unknown-name path an arbitrary identifier takes in the
source. -/

inductive MathFn
  | sqrt | floor | ceil | fabs
deriving DecidableEq, Repr

def mathFnName : MathFn → String
  | .sqrt => "sqrt"
  | .floor => "floor"
  | .ceil => "ceil"
  | .fabs => "fabs"

/-- A value produced by `_safe_eval`: a number, or one of the whitelisted
math functions (reachable by a bare name such as `"sqrt"`). -/
inductive Val
  | num (q : Q)
  | func (f : MathFn)
deriving DecidableEq, Repr

def piF : Q := ⟨884279719003555, 281474976710656⟩

def eulerF : Q := ⟨6121026514868073, 2251799813685248⟩

def tauF : Q := ⟨884279719003555, 140737488355328⟩

def SAFE_NAMES : List (String × Val) :=
  [("sqrt", .func .sqrt), ("floor", .func .floor), ("ceil", .func .ceil),
   ("fabs", .func .fabs), ("pi", .num piF), ("e", .num eulerF), ("tau", .num tauF)]

/-- Ceiling of a rational via `Q.floor`. -/
def Q.ceil (a : Q) : Int := -(Q.floor (Q.neg a))

/-- The `_SAFE_OPERATORS` binary table applied to two values: Python float
semantics on the exact fragment, with Python's `ZeroDivisionError` messages;
a non-numeric operand is a `TypeError` (caught, like every exception, by
`calculator`). -/
def applyBin (op : BOp) (a b : Val) : Except String Val :=
  match a, b with
  | .num x, .num y =>
    match op with
    | .add => .ok (.num (x.add y))
    | .sub => .ok (.num (x.sub y))
    | .mul => .ok (.num (x.mul y))
    | .div => if y.isZero then .error "float division by zero" else .ok (.num (x.div y))
    | .floordiv =>
      if y.isZero then .error "float floor division by zero"
      else .ok (.num (Q.ofInt ((x.div y).floor)))
    | .mod =>
      if y.isZero then .error "float modulo"
      else .ok (.num (x.sub (y.mul (Q.ofInt ((x.div y).floor)))))
    | .pow =>
      if y.den = 1 then
        if x.isZero ∧ y.num < 0 then .error "0.0 cannot be raised to a negative power"
        else .ok (.num (x.powInt y.num))
      else .error "fractional power: outside the exact-float fragment modelled here"
  | _, _ => .error "unsupported operand type(s)"

/-- The `_SAFE_OPERATORS` unary table applied to a value. -/
def applyUn (op : UOp) (a : Val) : Except String Val :=
  match a with
  | .num x =>
    match op with
    | .neg => .ok (.num x.neg)
    | .pos => .ok (.num x)
  | .func _ => .error "bad operand type for unary operator"

/-- Bind the single numeric argument of a one-argument math function, with
`TypeError`-style failures on arity or argument-type mismatch. -/
def arity1 (fname : String) (args : List Val) (k : Q → Except String Val) :
    Except String Val :=
  match args with
  | [.num q] => k q
  | [.func _] => .error "must be real number, not function"
  | _ => .error (fname ++ "() takes exactly one argument")

def applyCall : MathFn → List Val → Except String Val
  | .sqrt, args => arity1 "sqrt" args (fun q =>
      if q.isNeg then .error "math domain error"
      else
        match q.sqrtExact with
        | some r => .ok (.num r)
        | none => .error "inexact square root: outside the exact-float fragment modelled here")
  | .floor, args => arity1 "floor" args (fun q => .ok (.num (Q.ofInt q.floor)))
  | .ceil, args => arity1 "ceil" args (fun q => .ok (.num (Q.ofInt (Q.ceil q))))
  | .fabs, args => arity1 "fabs" args (fun q => .ok (.num (if q.isNeg then q.neg else q)))

/-! ## `_safe_eval`: the recursive whitelist walk -/

mutual

/-- Model of `_safe_eval`: numeric constants evaluate to themselves, names
resolve only against the whitelist, binary/unary nodes go through the
operator tables, and a call first evaluates the callee, checks callability,
then evaluates the positional arguments only — `node.keywords` is never
read. -/
def safe_eval : Ast → Except String Val
  | .const q => .ok (.num q)
  | .name id =>
    match SAFE_NAMES.lookup id with
    | some v => .ok v
    | none => .error ("Unknown name: '" ++ id ++ "'")
  | .binop op l r => do
    let a ← safe_eval l
    let b ← safe_eval r
    applyBin op a b
  | .unop op e => do
    let a ← safe_eval e
    applyUn op a
  | .call f args _keywords => do
    let fv ← safe_eval f
    match fv with
    | .num _ => .error "Not callable"
    | .func fn => do
      let vs ← safe_evalList args
      applyCall fn vs

def safe_evalList : List Ast → Except String (List Val)
  | [] => .ok []
  | a :: as => do
    let v ← safe_eval a
    let vs ← safe_evalList as
    .ok (v :: vs)

end

/-! ## Rendering: `str(int(result))` / `str(result)`
`calculator` renders a whole-number float through `str(int(result))` and
anything else through `str(result)`.  `str` on a float value uses the
shortest-repr form: fixed notation with a decimal point, switching to
scientific notation when the decimal exponent is below `-4` or at least
`16`; `str` on a math function yields `<built-in function name>`. -/

def digitChar : Nat → Char
  | 0 => '0'
  | 1 => '1'
  | 2 => '2'
  | 3 => '3'
  | 4 => '4'
  | 5 => '5'
  | 6 => '6'
  | 7 => '7'
  | 8 => '8'
  | _ => '9'

def natStrAux : Nat → Nat → List Char
  | 0, _ => []
  | f+1, n => if n < 10 then [digitChar n] else natStrAux f (n / 10) ++ [digitChar (n % 10)]

/-- Decimal rendering of a natural number (model of Python `str` on `int`). -/
def natStr (n : Nat) : String := String.mk (natStrAux (n+1) n)

/-- Decimal rendering of an integer. -/
def intStr (i : Int) : String := if i < 0 then "-" ++ natStr i.natAbs else natStr i.natAbs

/-- Multiplicity of `p` in `n`, fuel-based. -/
def padicF : Nat → Nat → Nat → Nat
  | 0, _, _ => 0
  | f+1, p, n => if n % p = 0 ∧ 2 ≤ p ∧ 0 < n then padicF f p (n / p) + 1 else 0

/-- Least `k` with `q * 10^k` integral, when the denominator is 2-5-smooth
(every binary float's reduced denominator is a power of two, hence smooth). -/
def decExp (q : Q) : Option Nat :=
  let a := padicF q.den 2 q.den
  let b := padicF q.den 5 q.den
  if q.den = 2^a * 5^b then some (max a b) else none

/-- Fixed-point decimal form `ddd.ddd` of a digit run with leading-digit
exponent `e`. -/
def fixedStr (s : List Char) (e : Int) : String :=
  if 0 ≤ e then
    let ip := s.take (e.toNat + 1)
    let fp := s.drop (e.toNat + 1)
    String.mk ip ++ "." ++ (if fp = [] then "0" else String.mk fp)
  else
    "0." ++ String.mk (List.replicate (-e - 1).toNat '0') ++ String.mk s

/-- Scientific form `d.ddde±XX` of a digit run with leading-digit exponent
`e` (at least two exponent digits, no point on a single-digit mantissa). -/
def sciStr (s : List Char) (e : Int) : String :=
  let mant :=
    match s with
    | [] => "0"
    | [c] => String.mk [c]
    | c :: rest => String.mk [c] ++ "." ++ String.mk rest
  let a := e.natAbs
  let es := if a < 10 then "0" ++ natStr a else natStr a
  mant ++ "e" ++ (if e < 0 then "-" else "+") ++ es

/-- Rendering of a positive non-integral float value by `str`. The smooth-denominator
branch is exact shortest-repr; the other branch is a model boundary (such a
value is not a binary float) rendered as floor plus 17 fractional digits. -/
def pyFloatPos (q : Q) : String :=
  match decExp q with
  | some k =>
    let m := ((Q.ofNat (10^k)).mul q).num.toNat
    let s := natStrAux (m+1) m
    let e : Int := (s.length : Int) - 1 - (k : Int)
    if e < -4 ∨ 16 ≤ e then sciStr s e else fixedStr s e
  | none =>
    let r := q.sub (Q.ofInt q.floor)
    let m := ((Q.ofNat (10^17)).mul r).floor.toNat
    let ds := natStrAux (m+1) m
    intStr q.floor ++ "." ++ String.mk (List.replicate (17 - ds.length) '0' ++ ds)

def pyFloatStr (q : Q) : String :=
  if q.isNeg then "-" ++ pyFloatPos q.neg else pyFloatPos q

/-- The rendering step of `calculator`: `str(int(result))` when the float is
whole, `str(result)` otherwise (also covering the function-object case). -/
def renderVal : Val → String
  | .num q => if q.den = 1 then intStr q.num else pyFloatStr q
  | .func f => "<built-in function " ++ mathFnName f ++ ">"

/-! ## `calculator` -/

/-- Model of `str.strip()`: drop leading and trailing whitespace. -/
def pyStrip (s : String) : String :=
  String.mk ((s.data.dropWhile Char.isWhitespace).reverse.dropWhile Char.isWhitespace).reverse

/-- Parse-and-evaluate composition inside `calculator`'s `try` block. -/
def calcVal (expression : String) : Except String Val := do
  let t ← parseExpr (pyStrip expression)
  safe_eval t

/-- Model of `calculator`: evaluate the expression; any failure is caught
and rendered as `"Error: "` followed by the exception message. -/
def calculator (expression : String) : String :=
  match calcVal expression with
  | .ok v => renderVal v
  | .error m => "Error: " ++ m

/-! ## The remaining tools -/

/-- Model of `get_current_datetime`: the formatted current time is the only
environmental input, threaded in as the string `clock`. -/
def get_current_datetime (clock : String) : String := clock

def wordsAux : List Char → Bool → Nat → Nat
  | [], _, n => n
  | c :: cs, inWord, n =>
    if c.isWhitespace then wordsAux cs false n
    else if inWord then wordsAux cs inWord n
    else wordsAux cs true (n+1)

/-- Model of `count_words`: `str(len(text.split()))` — the number of maximal
nonempty runs of non-whitespace characters. -/
def count_words (text : String) : String := natStr (wordsAux text.data false 0)

/-- Model of `reverse_text`: `text[::-1]` reverses the character sequence. -/
def reverse_text (text : String) : String := String.mk text.data.reverse

/-! ## Tool registry and dispatcher -/

inductive ToolFn
  | calculator | get_current_datetime | count_words | reverse_text
deriving DecidableEq, Repr

def TOOL_REGISTRY : List (String × ToolFn) :=
  [("calculator", .calculator), ("get_current_datetime", .get_current_datetime),
   ("count_words", .count_words), ("reverse_text", .reverse_text)]

/-- Keyword binding of `fn(**tool_args)` for a tool with one required string
parameter: an argument name outside the signature or a missing required
argument raises a `TypeError` (whose message `dispatch` catches and wraps).
Tool argument values are modelled as strings: all four registered tools
declare only string parameters. -/
def bindStrArg (fname pname : String) (f : String → String)
    (args : List (String × String)) : Except String String :=
  match args.find? (fun kv => kv.1 != pname) with
  | some kv => .error (fname ++ "() got an unexpected keyword argument '" ++ kv.1 ++ "'")
  | none =>
    match args.lookup pname with
    | some v => .ok (f v)
    | none => .error (fname ++ "() missing 1 required positional argument: '" ++ pname ++ "'")

/-- Invoke a registered tool function on a keyword-argument mapping,
`Except.error` standing for a raised exception. -/
def callTool (clock : String) : ToolFn → List (String × String) → Except String String
  | .calculator, args => bindStrArg "calculator" "expression" calculator args
  | .get_current_datetime, args =>
    match args with
    | [] => .ok (get_current_datetime clock)
    | kv :: _ =>
      .error ("get_current_datetime() got an unexpected keyword argument '" ++ kv.1 ++ "'")
  | .count_words, args => bindStrArg "count_words" "text" count_words args
  | .reverse_text, args => bindStrArg "reverse_text" "text" reverse_text args

/-- Model of `dispatch`: unknown names answer without any call attempt; a
raising tool is caught and wrapped; a successful result is returned
unmodified. -/
def dispatch (clock : String) (tool_name : String) (tool_args : List (String × String)) :
    String :=
  match TOOL_REGISTRY.lookup tool_name with
  | none => "Error: unknown tool '" ++ tool_name ++ "'"
  | some fn =>
    match callTool clock fn tool_args with
    | .ok r => r
    | .error m => "Error calling '" ++ tool_name ++ "': " ++ m

/-! ## Conversation orchestrator (`Agent`)
The message history is explicit state; a turn is a function from the old
state to the new state paired with the turn's outcome, where `Except.error`
models an exception propagating out of the turn (the Python list mutations
performed before the raise survive in the returned state, exactly as the
in-place `self._messages` mutations survive). -/

inductive Role
  | system | user | assistant | tool
deriving DecidableEq, Repr

structure ToolCall where
  id : String
  name : String
  arguments : Option (List (String × String))
deriving DecidableEq, Repr

/-- The message object returned by the external collaborator: optional text
content plus the requested tool calls.  `arguments = none` models a payload
`json.loads` rejects, degraded to the empty mapping at dispatch time. -/
structure AssistantMsg where
  content : Option String
  tool_calls : List ToolCall
deriving DecidableEq, Repr

structure Msg where
  role : Role
  content : String
  tool_call_id : Option String
  tool_calls : List ToolCall
deriving DecidableEq, Repr

instance : Inhabited Msg := ⟨⟨.system, "", none, []⟩⟩

def systemMsg (p : String) : Msg := ⟨.system, p, none, []⟩

def userMsg (u : String) : Msg := ⟨.user, u, none, []⟩

/-- The raw assistant message appended verbatim to history (`model_dump`). -/
def assistantToMsg (am : AssistantMsg) : Msg :=
  ⟨.assistant, am.content.getD "", none, am.tool_calls⟩

/-- The external model collaborator: a chat-completion call on the current
history, which either returns an assistant message or raises (transport
failure). -/
abbrev Model : Type := List Msg → Except String AssistantMsg

structure Agent where
  maxToolRounds : Nat
  messages : List Msg
deriving Repr

def DEFAULT_MAX_TOOL_ROUNDS : Nat := 10

/-- Model of the agent constructor: history starts as the single system message. -/
def Agent.init (system_prompt : String) (max_tool_rounds : Nat) : Agent :=
  ⟨max_tool_rounds, [systemMsg system_prompt]⟩

/-- Model of the agent constructor with the default round cap. -/
def Agent.initDefault (system_prompt : String) : Agent :=
  Agent.init system_prompt DEFAULT_MAX_TOOL_ROUNDS

def FALLBACK : String :=
  "Agent reached the maximum number of tool-call rounds without a final answer."

/-- One round's tool execution: each requested call is dispatched in order
(malformed argument payloads degrade to the empty mapping) and recorded as a
`tool` message carrying the correlation id. -/
def runTools (clock : String) (tcs : List ToolCall) : List Msg :=
  tcs.map (fun tc => ⟨.tool, dispatch clock tc.name (tc.arguments.getD []), some tc.id, []⟩)

/-- The `for _ in range(self._max_tool_rounds)` loop of `Agent.chat`.  Fuel
exhaustion returns the fallback notice without appending it. -/
def chatLoop (model : Model) (clock : String) : Nat → List Msg → List Msg × Except String String
  | 0, msgs => (msgs, .ok FALLBACK)
  | n+1, msgs =>
    match model msgs with
    | .error e => (msgs, .error e)
    | .ok am =>
      let msgs1 := msgs ++ [assistantToMsg am]
      if am.tool_calls.isEmpty then (msgs1, .ok (am.content.getD ""))
      else chatLoop model clock n (msgs1 ++ runTools clock am.tool_calls)

/-- Model of `Agent.chat`: append the user message, then run tool-call
rounds until a final answer, an exception, or round exhaustion. -/
def Agent.chat (a : Agent) (model : Model) (clock : String) (user_message : String) :
    Agent × Except String String :=
  let p := chatLoop model clock a.maxToolRounds (a.messages ++ [userMsg user_message])
  ({a with messages := p.1}, p.2)

/-- Model of `Agent.reset`: truncate history to `self._messages[0]`. -/
def Agent.reset (a : Agent) : Agent := {a with messages := [a.messages.headI]}

/-! ## Correctness of the exact-rational arithmetic
`Q.toRat` sends a model number to its mathematical value; the lemmas below
say the normalising constructor and the arithmetic operations compute the
standard rational operations. -/

theorem Q.mk'_toRat (n : Int) (d : Nat) (hd : d ≠ 0) :
    (Q.mk' n d).toRat = (n : ℚ) / (d : ℚ) := by
  unfold Q.mk' Q.toRat
  have hg : ngcd n.natAbs d = Nat.gcd n.natAbs d := ngcd_eq_gcd _ _
  simp only [hg]
  set g := Nat.gcd n.natAbs d with hgdef
  have hgn : (g : Int) ∣ n := Int.natCast_dvd.mpr (Nat.gcd_dvd_left _ _)
  have hgd : g ∣ d := Nat.gcd_dvd_right _ _
  have hg0 : g ≠ 0 := by
    intro h0
    exact hd (Nat.eq_zero_of_gcd_eq_zero_right (hgdef ▸ h0))
  obtain ⟨n', hn'⟩ := hgn
  obtain ⟨d', hd'⟩ := hgd
  have hgz : (g : Int) ≠ 0 := Int.natCast_ne_zero.mpr hg0
  have h1 : n / (g : Int) = n' := by
    rw [hn', Int.mul_ediv_cancel_left _ hgz]
  have h2 : d / g = d' := by
    rw [hd', Nat.mul_div_cancel_left _ (Nat.pos_of_ne_zero hg0)]
  rw [h1, h2, hn', hd']
  push_cast
  rw [mul_comm (g : ℚ) (n' : ℚ), mul_comm (g : ℚ) (d' : ℚ)]
  rw [mul_div_mul_right _ _ (by exact_mod_cast hg0)]

theorem Q.toRat_add (a b : Q) (ha : a.den ≠ 0) (hb : b.den ≠ 0) :
    (a.add b).toRat = a.toRat + b.toRat := by
  unfold Q.add
  rw [Q.mk'_toRat _ _ (Nat.mul_ne_zero ha hb)]
  unfold Q.toRat
  have ha' : (a.den : ℚ) ≠ 0 := Nat.cast_ne_zero.mpr ha
  have hb' : (b.den : ℚ) ≠ 0 := Nat.cast_ne_zero.mpr hb
  field_simp

theorem Q.toRat_sub (a b : Q) (ha : a.den ≠ 0) (hb : b.den ≠ 0) :
    (a.sub b).toRat = a.toRat - b.toRat := by
  unfold Q.sub
  rw [Q.mk'_toRat _ _ (Nat.mul_ne_zero ha hb)]
  unfold Q.toRat
  have ha' : (a.den : ℚ) ≠ 0 := Nat.cast_ne_zero.mpr ha
  have hb' : (b.den : ℚ) ≠ 0 := Nat.cast_ne_zero.mpr hb
  field_simp
  ring

theorem Q.toRat_mul (a b : Q) (ha : a.den ≠ 0) (hb : b.den ≠ 0) :
    (a.mul b).toRat = a.toRat * b.toRat := by
  unfold Q.mul
  rw [Q.mk'_toRat _ _ (Nat.mul_ne_zero ha hb)]
  unfold Q.toRat
  have ha' : (a.den : ℚ) ≠ 0 := Nat.cast_ne_zero.mpr ha
  have hb' : (b.den : ℚ) ≠ 0 := Nat.cast_ne_zero.mpr hb
  field_simp

theorem Q.toRat_neg (a : Q) : (Q.neg a).toRat = -a.toRat := by
  unfold Q.neg Q.toRat
  push_cast
  ring

theorem Q.toRat_div (a b : Q) (ha : a.den ≠ 0) (hb : b.den ≠ 0) (hbn : b.num ≠ 0) :
    (a.div b).toRat = a.toRat / b.toRat := by
  unfold Q.div
  have hden : a.den * b.num.natAbs ≠ 0 :=
    Nat.mul_ne_zero ha (Int.natAbs_ne_zero.mpr hbn)
  rw [Q.mk'_toRat _ _ hden]
  unfold Q.toRat
  have ha' : (a.den : ℚ) ≠ 0 := Nat.cast_ne_zero.mpr ha
  have hb' : (b.den : ℚ) ≠ 0 := Nat.cast_ne_zero.mpr hb
  have hbn' : (b.num : ℚ) ≠ 0 := Int.cast_ne_zero.mpr hbn
  have habs : ((b.num.natAbs : Nat) : ℚ) = |(b.num : ℚ)| := by
    push_cast [Int.cast_natAbs]
    ring
  by_cases hneg : b.num < 0
  · rw [if_pos hneg]
    have hlt : (b.num : ℚ) < 0 := by exact_mod_cast hneg
    push_cast [habs, abs_of_neg hlt]
    field_simp
  · rw [if_neg hneg]
    have hge : (0 : ℚ) ≤ (b.num : ℚ) := by exact_mod_cast (not_lt.mp hneg)
    push_cast [habs, abs_of_nonneg hge]
    field_simp

/-! ## Rendering helper lemmas: integer renderings contain no point -/

theorem digitChar_ne_dot (n : Nat) : digitChar n ≠ '.' := by
  rcases n with _|_|_|_|_|_|_|_|_|n
  case succ.succ.succ.succ.succ.succ.succ.succ.succ =>
    show ('9' : Char) ≠ '.'
    decide
  all_goals decide

theorem natStrAux_ne_dot : ∀ (f n : Nat), ∀ c ∈ natStrAux f n, c ≠ '.' := by
  intro f
  induction f with
  | zero => intro n c hc; simp [natStrAux] at hc
  | succ f ih =>
    intro n c hc
    rw [natStrAux] at hc
    by_cases h : n < 10
    · rw [if_pos h] at hc
      simp only [List.mem_singleton] at hc
      subst hc
      exact digitChar_ne_dot n
    · rw [if_neg h] at hc
      rcases List.mem_append.mp hc with h1 | h2
      · exact ih (n / 10) c h1
      · simp only [List.mem_singleton] at h2
        subst h2
        exact digitChar_ne_dot (n % 10)

theorem intStr_ne_dot (i : Int) : '.' ∉ (intStr i).data := by
  unfold intStr
  by_cases h : i < 0
  · rw [if_pos h]
    intro hc
    rw [String.data_append] at hc
    rcases List.mem_append.mp hc with h1 | h2
    · simp [String.data] at h1
    · exact natStrAux_ne_dot _ _ _ h2 rfl
  · rw [if_neg h]
    intro hc
    exact natStrAux_ne_dot _ _ _ hc rfl

/-! ## Claims about the calculator -/

/-- Claim C2: for every input string `calculator` returns a string and never
raises — it is a total function whose every outcome is either a successful
rendering or exactly `"Error: "` followed by the underlying message; the
enumerated failure families (empty and whitespace-only input, disallowed
syntax, unknown names, unsupported operators, division by zero) all land in
the error branch. -/
theorem calculator_never_raises_error_prefix :
    (∀ s : String, (∃ m, calculator s = "Error: " ++ m) ∨
      (∃ v, calcVal s = .ok v ∧ calculator s = renderVal v)) ∧
    (calculator "").take 7 = "Error: " ∧
    (calculator "   ").take 7 = "Error: " ∧
    (calculator "import os").take 7 = "Error: " ∧
    (calculator "malicious()").take 7 = "Error: " ∧
    (calculator "1 / 0").take 7 = "Error: " ∧
    (calculator "1 | 2").take 7 = "Error: " := by
  refine ⟨?_, by decide, by decide, by decide, by decide, by decide, by decide⟩
  intro s
  cases h : calcVal s with
  | ok v => exact .inr ⟨v, rfl, by simp [calculator, h]⟩
  | error m => exact .inl ⟨m, by simp [calculator, h]⟩

/-- Claim C3: on the whitelisted fragment the evaluator computes standard
arithmetic — the binary operator table realises rational addition,
subtraction, multiplication and (nonzero) division under `Q.toRat`, unary
sign realises negation/identity — and the claim's example expressions
evaluate end-to-end to the stated strings. -/
theorem calculator_standard_arithmetic :
    (∀ x y : Q, x.den ≠ 0 → y.den ≠ 0 →
      (∃ z, applyBin .add (.num x) (.num y) = .ok (.num z) ∧
        z.toRat = x.toRat + y.toRat) ∧
      (∃ z, applyBin .sub (.num x) (.num y) = .ok (.num z) ∧
        z.toRat = x.toRat - y.toRat) ∧
      (∃ z, applyBin .mul (.num x) (.num y) = .ok (.num z) ∧
        z.toRat = x.toRat * y.toRat) ∧
      (y.num ≠ 0 →
        ∃ z, applyBin .div (.num x) (.num y) = .ok (.num z) ∧
          z.toRat = x.toRat / y.toRat)) ∧
    (∀ x : Q, applyUn .neg (.num x) = .ok (.num (Q.neg x)) ∧
      (Q.neg x).toRat = -x.toRat ∧ applyUn .pos (.num x) = .ok (.num x)) ∧
    calculator "2 + 3 * 4" = "14" ∧
    calculator "2 ** 10" = "1024" ∧
    calculator "10 / 4" = "2.5" ∧
    calculator "10 // 3" = "3" ∧
    calculator "10 % 3" = "1" ∧
    calculator "sqrt(144)" = "12" ∧
    calculator "-5 + 10" = "5" := by
  refine ⟨?_, ?_, by decide, by decide, by decide, by decide, by decide, by decide, by decide⟩
  · intro x y hx hy
    refine ⟨⟨x.add y, rfl, Q.toRat_add x y hx hy⟩,
      ⟨x.sub y, rfl, Q.toRat_sub x y hx hy⟩,
      ⟨x.mul y, rfl, Q.toRat_mul x y hx hy⟩, ?_⟩
    intro hyn
    refine ⟨x.div y, ?_, Q.toRat_div x y hx hy hyn⟩
    simp [applyBin, Q.isZero, hyn]
  · intro x
    exact ⟨rfl, Q.toRat_neg x, rfl⟩

/-- Witness for C3 at concrete inputs: `1/1 ÷ 2/1` through the binary
operator table. -/
theorem calculator_standard_arithmetic_witness :
    ∃ z, applyBin .div (.num ⟨1, 1⟩) (.num ⟨2, 1⟩) = .ok (.num z) ∧
      z.toRat = Q.toRat ⟨1, 1⟩ / Q.toRat ⟨2, 1⟩ :=
  (calculator_standard_arithmetic.1 ⟨1, 1⟩ ⟨2, 1⟩ (by decide) (by decide)).2.2.2 (by decide)

/-- Claim C7 as stated is false on the code: `calculator "0.00001"` succeeds
with the non-whole value `1/100000` yet renders as `"1e-05"` — the default
float string form uses scientific notation below `1e-4`, which contains no
decimal point. -/
theorem calculator_sci_render_no_point_cex :
    calcVal "0.00001" = .ok (.num ⟨1, 100000⟩) ∧
    calculator "0.00001" = "1e-05" ∧
    (calculator "0.00001").take 7 ≠ "Error: " ∧
    '.' ∉ (calculator "0.00001").data := by
  exact ⟨rfl, by decide, by decide, by decide⟩

/-- Claim C7 (amended): whole-number results always render without a decimal
point; non-whole results render in the language's default float form, which
contains a decimal point in fixed notation (e.g. `"10 / 4"` → `"2.5"`) but
not when scientific notation is chosen (e.g. `"0.00001"` → `"1e-05"`). -/
theorem calculator_whole_number_render :
    (∀ q : Q, q.den = 1 → '.' ∉ (renderVal (.num q)).data) ∧
    calculator "10 / 4" = "2.5" ∧
    '.' ∈ ("2.5" : String).data ∧
    calculator "0.00001" = "1e-05" := by
  refine ⟨?_, by decide, by decide, by decide⟩
  intro q hq
  simp only [renderVal, if_pos hq]
  exact intStr_ne_dot q.num

/-- Witness for C7 (amended) at the whole number `14`. -/
theorem calculator_whole_number_render_witness :
    '.' ∉ (renderVal (.num ⟨14, 1⟩)).data :=
  calculator_whole_number_render.1 ⟨14, 1⟩ rfl

/-- A string is a palindrome when its character sequence equals its own
reversal. -/
def Palindrome (s : String) : Prop := s.data.reverse = s.data

/-- Claim C8: `reverse_text` is an involution, the empty string is a fixed
point, and every palindrome is a fixed point. -/
theorem reverse_text_involution :
    (∀ s : String, reverse_text (reverse_text s) = s) ∧
    reverse_text "" = "" ∧
    (∀ s : String, Palindrome s → reverse_text s = s) := by
  refine ⟨?_, rfl, ?_⟩
  · intro s
    show String.mk (String.mk s.data.reverse).data.reverse = s
    rw [show (String.mk s.data.reverse).data = s.data.reverse from rfl, List.reverse_reverse]
  · intro s hp
    show String.mk s.data.reverse = s
    rw [hp]

/-- Witness for C8 at `"ab"` and the palindrome `"racecar"`. -/
theorem reverse_text_involution_witness :
    reverse_text (reverse_text "ab") = "ab" ∧ reverse_text "racecar" = "racecar" :=
  ⟨reverse_text_involution.1 "ab", reverse_text_involution.2.2 "racecar" (by
    show "racecar".data.reverse = "racecar".data
    decide)⟩

/-- Claim C9: the bare whitelisted name `"sqrt"` evaluates to the function
object itself, and `calculator` renders it as `str` of that object —
neither an error string nor a number. -/
theorem calculator_bare_name_function_render :
    calcVal "sqrt" = .ok (.func .sqrt) ∧
    calculator "sqrt" = "<built-in function sqrt>" ∧
    (calculator "sqrt").take 7 ≠ "Error: " := by
  exact ⟨rfl, rfl, by decide⟩

/-- Claim C10: the evaluator never reads a call's keyword arguments — any
call evaluates exactly as the same call with its keyword arguments removed —
so `"sqrt(144, x=1)"` silently evaluates like `"sqrt(144)"`. -/
theorem calculator_keywords_discarded :
    (∀ (f : Ast) (args : List Ast) (kws : List (String × Ast)),
      safe_eval (.call f args kws) = safe_eval (.call f args [])) ∧
    calculator "sqrt(144, x=1)" = "12" ∧
    calculator "sqrt(144, x=1)" = calculator "sqrt(144)" := by
  refine ⟨?_, by decide, by decide⟩
  intro f args kws
  simp [safe_eval]

/-! ## Claims about the dispatcher -/

/-- Claim C5: `dispatch` never raises — an unregistered name answers exactly
`"Error: unknown tool '<name>'"` straight from the registry lookup, a
registered tool whose call raises (e.g. keyword mismatch) answers
`"Error calling '<name>': <message>"`, and a successful call's string result
is returned unmodified; plus the concrete behaviours the repository's tests
pin down. -/
theorem dispatch_contract :
    (∀ (clock name : String) (args : List (String × String)),
      TOOL_REGISTRY.lookup name = none →
      dispatch clock name args = "Error: unknown tool '" ++ name ++ "'") ∧
    (∀ (clock name : String) (fn : ToolFn) (args : List (String × String)) (m : String),
      TOOL_REGISTRY.lookup name = some fn → callTool clock fn args = .error m →
      dispatch clock name args = "Error calling '" ++ name ++ "': " ++ m) ∧
    (∀ (clock name : String) (fn : ToolFn) (args : List (String × String)) (r : String),
      TOOL_REGISTRY.lookup name = some fn → callTool clock fn args = .ok r →
      dispatch clock name args = r) ∧
    dispatch "c" "does_not_exist" [] = "Error: unknown tool 'does_not_exist'" ∧
    (dispatch "c" "count_words" [("wrong_param", "hello")]).take 5 = "Error" ∧
    (dispatch "c" "count_words" []).take 5 = "Error" ∧
    dispatch "c" "calculator" [("expression", "1 + 1")] = "2" ∧
    dispatch "clk" "get_current_datetime" [] = "clk" := by
  refine ⟨?_, ?_, ?_, by decide, by decide, by decide, by decide, by decide⟩
  · intro clock name args h
    simp [dispatch, h]
  · intro clock name fn args m h hm
    simp [dispatch, h, hm]
  · intro clock name fn args r h hr
    simp [dispatch, h, hr]

/-- Witness for C5: each hypothesis-bearing branch of the contract applied
at a concrete input. -/
theorem dispatch_contract_witness :
    dispatch "c" "nope" [] = "Error: unknown tool 'nope'" ∧
    dispatch "c" "count_words" [("x", "y")] =
      "Error calling 'count_words': count_words() got an unexpected keyword argument 'x'" ∧
    dispatch "c" "reverse_text" [("text", "ab")] = "ba" :=
  ⟨dispatch_contract.1 "c" "nope" [] (by decide),
   dispatch_contract.2.1 "c" "count_words" .count_words [("x", "y")]
     "count_words() got an unexpected keyword argument 'x'" (by decide) rfl,
   dispatch_contract.2.2.1 "c" "reverse_text" .reverse_text [("text", "ab")] "ba"
     (by decide) rfl⟩

/-! ## Orchestrator lemmas -/

theorem runTools_roles (clock : String) (tcs : List ToolCall) :
    ∀ x ∈ runTools clock tcs, x.role = .tool := by
  intro x hx
  rcases List.mem_map.mp hx with ⟨tc, _, rfl⟩
  rfl

/-- The chat loop only ever appends messages, and none of them is a system
message. -/
theorem chatLoop_extends (model : Model) (clock : String) :
    ∀ (n : Nat) (msgs : List Msg),
      ∃ sfx, (chatLoop model clock n msgs).1 = msgs ++ sfx ∧
        ∀ x ∈ sfx, x.role ≠ .system := by
  intro n
  induction n with
  | zero => intro msgs; exact ⟨[], by simp [chatLoop], by simp⟩
  | succ n ih =>
    intro msgs
    rw [chatLoop]
    cases h : model msgs with
    | error e => exact ⟨[], by simp, by simp⟩
    | ok am =>
      by_cases htc : am.tool_calls.isEmpty
      · refine ⟨[assistantToMsg am], by simp [htc], ?_⟩
        intro x hx
        simp only [List.mem_singleton] at hx
        subst hx
        simp [assistantToMsg]
      · simp only [htc, if_neg, Bool.false_eq_true, not_false_eq_true]
        obtain ⟨sfx, h1, h2⟩ :=
          ih ((msgs ++ [assistantToMsg am]) ++ runTools clock am.tool_calls)
        refine ⟨[assistantToMsg am] ++ runTools clock am.tool_calls ++ sfx, ?_, ?_⟩
        · rw [h1]
          simp [List.append_assoc]
        · intro x hx
          rcases List.mem_append.mp hx with hx1 | hx2
          · rcases List.mem_append.mp hx1 with hx3 | hx4
            · simp only [List.mem_singleton] at hx3
              subst hx3
              simp [assistantToMsg]
            · rw [runTools_roles clock am.tool_calls x hx4]
              simp
          · exact h2 x hx2

/-- On a turn that ends in a transport error, the history is the old history
plus the user message plus the messages of the completed rounds. -/
theorem chatLoop_error_extends (model : Model) (clock : String) (e : String) :
    ∀ (n : Nat) (msgs : List Msg),
      (chatLoop model clock n msgs).2 = .error e →
      ∃ sfx, (chatLoop model clock n msgs).1 = msgs ++ sfx := by
  intro n
  induction n with
  | zero => intro msgs h; simp [chatLoop] at h
  | succ n ih =>
    intro msgs
    rw [chatLoop]
    cases hm : model msgs with
    | error e2 =>
      intro _
      exact ⟨[], by simp⟩
    | ok am =>
      dsimp only
      by_cases htc : am.tool_calls.isEmpty
      · rw [if_pos htc]
        intro h
        simp at h
      · rw [if_neg htc]
        intro h
        obtain ⟨sfx, h1⟩ := ih _ h
        exact ⟨[assistantToMsg am] ++ runTools clock am.tool_calls ++ sfx,
          by rw [h1]; simp [List.append_assoc]⟩

/-- Number of messages of a given role in a history. -/
def countRole (r : Role) (l : List Msg) : Nat := (l.filter (fun m => m.role == r)).length

theorem countRole_append (r : Role) (l1 l2 : List Msg) :
    countRole r (l1 ++ l2) = countRole r l1 + countRole r l2 := by
  simp [countRole, List.filter_append]

theorem countRole_eq_zero {r : Role} : ∀ {l : List Msg},
    (∀ x ∈ l, x.role ≠ r) → countRole r l = 0 := by
  intro l
  induction l with
  | nil => intro _; rfl
  | cons m t ih =>
    intro h
    have hm : (m.role == r) = false := by
      simp only [beq_eq_false_iff_ne]
      exact h m (by simp)
    simp only [countRole, List.filter_cons, hm, Bool.false_eq_true, if_false]
    exact ih (fun x hx => h x (by simp [hx]))

theorem countRole_runTools_assistant (clock : String) (tcs : List ToolCall) :
    countRole .assistant (runTools clock tcs) = 0 :=
  countRole_eq_zero (fun x hx => by
    rw [runTools_roles clock tcs x hx]
    decide)

/-- Under a collaborator that always requests at least one tool call, the
loop consumes all its fuel, answers the fallback notice without appending
it, performs exactly `n` model rounds (one appended assistant message per
round), and — when at least one round ran — leaves a tool message last. -/
theorem chatLoop_all_tools (model : Model) (clock : String)
    (hm : ∀ msgs, ∃ am, model msgs = .ok am ∧ am.tool_calls ≠ []) :
    ∀ (n : Nat) (msgs : List Msg),
      ∃ sfx, chatLoop model clock n msgs = (msgs ++ sfx, .ok FALLBACK) ∧
        countRole .assistant sfx = n ∧
        (0 < n → ∃ pre m, sfx = pre ++ [m] ∧ m.role = .tool) := by
  intro n
  induction n with
  | zero =>
    intro msgs
    exact ⟨[], by simp [chatLoop], rfl, by omega⟩
  | succ n ih =>
    intro msgs
    obtain ⟨am, hmod, htc⟩ := hm msgs
    have htc' : ¬ (am.tool_calls.isEmpty = true) := by
      cases hl : am.tool_calls with
      | nil => exact absurd hl htc
      | cons x xs => simp [hl]
    have hrt : runTools clock am.tool_calls ≠ [] := by
      cases hl : am.tool_calls with
      | nil => exact absurd hl htc
      | cons x xs => simp [runTools, hl]
    obtain ⟨sfx, h1, h2, h3⟩ :=
      ih ((msgs ++ [assistantToMsg am]) ++ runTools clock am.tool_calls)
    have hloop : chatLoop model clock (n+1) msgs =
        chatLoop model clock n ((msgs ++ [assistantToMsg am]) ++ runTools clock am.tool_calls) := by
      rw [chatLoop, hmod]
      dsimp only
      rw [if_neg htc']
    refine ⟨[assistantToMsg am] ++ runTools clock am.tool_calls ++ sfx, ?_, ?_, ?_⟩
    · rw [hloop, h1]
      simp [List.append_assoc]
    · rw [countRole_append, countRole_append, countRole_runTools_assistant, h2]
      simp [countRole, assistantToMsg]
      omega
    · intro _
      cases n with
      | zero =>
        have hz : chatLoop model clock 0
            ((msgs ++ [assistantToMsg am]) ++ runTools clock am.tool_calls) =
            ((msgs ++ [assistantToMsg am]) ++ runTools clock am.tool_calls, .ok FALLBACK) := by
          simp [chatLoop]
        rw [hz] at h1
        have hsfx : sfx = [] := by
          have := congrArg Prod.fst h1
          simpa using this.symm
        subst hsfx
        rcases List.eq_nil_or_concat (runTools clock am.tool_calls) with hc | ⟨pre, b, hpb⟩
        · exact absurd hc hrt
        · refine ⟨[assistantToMsg am] ++ pre, b, ?_, ?_⟩
          · rw [hpb]
            simp [List.append_assoc]
          · exact runTools_roles clock am.tool_calls b (by rw [hpb]; simp)
      | succ n' =>
        obtain ⟨pre, m, hsfx, hrole⟩ := h3 (Nat.succ_pos n')
        refine ⟨[assistantToMsg am] ++ runTools clock am.tool_calls ++ pre, m, ?_, hrole⟩
        rw [hsfx]
        simp [List.append_assoc]

/-- Claim C4: against a collaborator that on every round requests at least
one tool call and never answers, a turn ends with exactly the configured
maximum number of rounds (each round appending exactly one assistant
message), yields the fixed fallback notice as its return value, does not
append that notice to the history (the history ends in a tool message), and
the configured default maximum is 10. -/
theorem chat_round_exhaustion (model : Model) (clock : String) (a : Agent) (u : String)
    (hm : ∀ msgs, ∃ am, model msgs = .ok am ∧ am.tool_calls ≠ []) :
    (a.chat model clock u).2 = .ok FALLBACK ∧
    countRole .assistant (a.chat model clock u).1.messages =
      countRole .assistant a.messages + a.maxToolRounds ∧
    (0 < a.maxToolRounds →
      ∃ pre m, (a.chat model clock u).1.messages = pre ++ [m] ∧ m.role = .tool) ∧
    (∀ p, (Agent.initDefault p).maxToolRounds = 10) := by
  obtain ⟨sfx, h1, h2, h3⟩ :=
    chatLoop_all_tools model clock hm a.maxToolRounds (a.messages ++ [userMsg u])
  refine ⟨?_, ?_, ?_, fun p => rfl⟩
  · show (chatLoop model clock a.maxToolRounds (a.messages ++ [userMsg u])).2 = .ok FALLBACK
    rw [h1]
  · show countRole .assistant
      (chatLoop model clock a.maxToolRounds (a.messages ++ [userMsg u])).1 = _
    rw [h1]
    show countRole .assistant ((a.messages ++ [userMsg u]) ++ sfx) = _
    rw [countRole_append, countRole_append, h2]
    simp [countRole, userMsg]
  · intro hpos
    obtain ⟨pre, m, hp, hr⟩ := h3 hpos
    refine ⟨(a.messages ++ [userMsg u]) ++ pre, m, ?_, hr⟩
    show (chatLoop model clock a.maxToolRounds (a.messages ++ [userMsg u])).1 = _
    rw [h1]
    show (a.messages ++ [userMsg u]) ++ sfx = _
    rw [hp]
    simp [List.append_assoc]

/-- Witness for C4: a collaborator that always asks for one calculator call
exhausts the default ten rounds and returns the fallback notice. -/
theorem chat_round_exhaustion_witness :
    ((Agent.initDefault "sys").chat
        (fun _ => .ok ⟨some "x", [⟨"id1", "calculator", some [("expression", "1 + 1")]⟩]⟩)
        "clk" "go").2 = .ok FALLBACK :=
  (chat_round_exhaustion
      (fun _ => .ok ⟨some "x", [⟨"id1", "calculator", some [("expression", "1 + 1")]⟩]⟩)
      "clk" (Agent.initDefault "sys") "go"
      (fun _ => ⟨_, rfl, by simp⟩)).1

/-- A well-formed history: nonempty, starting with the initial system
message, with no system message anywhere after it. -/
def WfHistory (p : String) : List Msg → Prop
  | [] => False
  | m :: t => m = systemMsg p ∧ ∀ x ∈ t, x.role ≠ .system

theorem WfHistory.append {p : String} {l extra : List Msg} (h : WfHistory p l)
    (hx : ∀ x ∈ extra, x.role ≠ .system) : WfHistory p (l ++ extra) := by
  cases l with
  | nil => exact absurd h (by simp [WfHistory])
  | cons m t =>
    obtain ⟨h1, h2⟩ := h
    refine ⟨h1, ?_⟩
    intro x hxm
    rcases List.mem_append.mp hxm with h3 | h4
    · exact h2 x h3
    · exact hx x h4

/-- The states an `Agent` can reach from construction with prompt `p` by any
sequence of turns (any collaborator, any clock, any user input) and resets. -/
inductive Reachable (p : String) : Agent → Prop
  | init (n : Nat) : Reachable p (Agent.init p n)
  | chat (model : Model) (clock u : String) {a : Agent} :
      Reachable p a → Reachable p (a.chat model clock u).1
  | reset {a : Agent} : Reachable p a → Reachable p a.reset

theorem reachable_wf {p : String} {a : Agent} (h : Reachable p a) :
    WfHistory p a.messages := by
  induction h with
  | init n => exact ⟨rfl, by simp⟩
  | @chat model clock u a _ ih =>
    obtain ⟨sfx, h1, h2⟩ :=
      chatLoop_extends model clock a.maxToolRounds (a.messages ++ [userMsg u])
    show WfHistory p (chatLoop model clock a.maxToolRounds (a.messages ++ [userMsg u])).1
    rw [h1]
    refine (ih.append ?_).append h2
    intro x hx
    simp only [List.mem_singleton] at hx
    subst hx
    simp [userMsg]
  | @reset a _ ih =>
    rcases hm : a.messages with _ | ⟨m, t⟩
    · rw [hm] at ih
      exact absurd ih (by simp [WfHistory])
    · rw [hm] at ih
      show WfHistory p [a.messages.headI]
      rw [hm]
      exact ⟨by simp [ih.1], by simp⟩

/-- Claim C6: every reachable conversation state begins with exactly one
system message (the initial one) and contains no other system message, and
`reset` leaves exactly that single initial system message. -/
theorem conversation_system_message_invariant (p : String) (a : Agent)
    (h : Reachable p a) :
    WfHistory p a.messages ∧ a.reset.messages = [systemMsg p] := by
  have hwf := reachable_wf h
  refine ⟨hwf, ?_⟩
  rcases hm : a.messages with _ | ⟨m, t⟩
  · rw [hm] at hwf
    exact absurd hwf (by simp [WfHistory])
  · rw [hm] at hwf
    show [a.messages.headI] = [systemMsg p]
    rw [hm]
    simp [hwf.1]

/-- Witness for C6 at a freshly constructed agent. -/
theorem conversation_system_message_invariant_witness :
    WfHistory "sys" (Agent.init "sys" 10).messages ∧
    (Agent.init "sys" 10).reset.messages = [systemMsg "sys"] :=
  conversation_system_message_invariant "sys" (Agent.init "sys" 10) (.init 10)

/-- Claim C1 as stated is false on the code: with a collaborator that raises
on the first call, the turn's caller does see the error, but the history is
not identical to its pre-turn state — `chat` appends the user message
before the model call and that append survives the raise. -/
theorem chat_transport_error_history_changed :
    ((Agent.initDefault "sys").chat (fun _ => .error "connection error") "clk" "hi").2 =
      .error "connection error" ∧
    ((Agent.initDefault "sys").chat (fun _ => .error "connection error") "clk" "hi").1.messages ≠
      (Agent.initDefault "sys").messages ∧
    ((Agent.initDefault "sys").chat (fun _ => .error "connection error") "clk" "hi").1.messages =
      [systemMsg "sys", userMsg "hi"] := by
  refine ⟨rfl, by decide, rfl⟩

/-- Claim C1 (amended): a transport error during the model call propagates
to the turn's caller, and the history then equals its pre-turn state
extended by the appended user message (plus the messages of any rounds
completed before the failure) — it is not rolled back. -/
theorem chat_transport_error_propagates_amended :
    (∀ (model : Model) (clock : String) (a : Agent) (u e : String),
      0 < a.maxToolRounds → (∀ msgs, model msgs = .error e) →
      (a.chat model clock u).2 = .error e ∧
      (a.chat model clock u).1.messages = a.messages ++ [userMsg u]) ∧
    (∀ (model : Model) (clock : String) (a : Agent) (u e : String),
      (a.chat model clock u).2 = .error e →
      ∃ sfx, (a.chat model clock u).1.messages = a.messages ++ userMsg u :: sfx) := by
  constructor
  · intro model clock a u e hpos hfail
    rcases hn : a.maxToolRounds with _ | n
    · omega
    · constructor
      · show (chatLoop model clock a.maxToolRounds (a.messages ++ [userMsg u])).2 = .error e
        rw [hn, chatLoop, hfail]
      · show (chatLoop model clock a.maxToolRounds (a.messages ++ [userMsg u])).1 =
          a.messages ++ [userMsg u]
        rw [hn, chatLoop, hfail]
  · intro model clock a u e h
    obtain ⟨sfx, h1⟩ :=
      chatLoop_error_extends model clock e a.maxToolRounds (a.messages ++ [userMsg u]) h
    refine ⟨sfx, ?_⟩
    show (chatLoop model clock a.maxToolRounds (a.messages ++ [userMsg u])).1 = _
    rw [h1]
    simp

/-- Witness for C1 (amended) with an always-failing collaborator. -/
theorem chat_transport_error_propagates_amended_witness :
    ((Agent.initDefault "sys").chat (fun _ => .error "net down") "clk" "hi").2 =
      .error "net down" ∧
    ((Agent.initDefault "sys").chat (fun _ => .error "net down") "clk" "hi").1.messages =
      (Agent.initDefault "sys").messages ++ [userMsg "hi"] :=
  chat_transport_error_propagates_amended.1 (fun _ => .error "net down") "clk"
    (Agent.initDefault "sys") "hi" "net down" (by decide) (fun _ => rfl)

end SingleAgent
